import Mathlib

/-!
Verification of the gridded-glyphmap core (leaflet-gridded-glyphmap).

This development shallowly embeds the grid discretizers
(src/modules/griddiscretizer.js, src/modules/hexdiscretizer.js), the
aggregation functions of the data processor (src/modules/data-processor.js),
the static-mode cache logic and dynamic-mode grid computation (src/index.js),
the trailing-edge throttle (src/index.js `_onDynamicEvent`) and the
coordinate transformer (src/modules/coordinate-transformer.js).

JavaScript numbers are modelled by `ℚ` (all the concrete inputs used in the
theorems below are exactly representable as binary64 floats, and the
operations involved - additions, subtractions, multiplications, divisions by
small powers of two and comparisons - are exact on them).
-/

/-- JavaScript `Math.trunc`: rounds toward zero. -/
def jsTrunc (q : ℚ) : ℤ := if 0 ≤ q then ⌊q⌋ else ⌈q⌉

theorem jsTrunc_of_nonneg (q : ℚ) (h : 0 ≤ q) : jsTrunc q = ⌊q⌋ := if_pos h

/-! ### Square grid discretizer (`_getGridDiscretiser` in griddiscretizer.js) -/

namespace GridDiscretiser

/-- `getColRow: (x, y) => [Math.trunc(x / cellSize), Math.trunc(y / cellSize)]` -/
def getColRow (cellSize x y : ℚ) : ℤ × ℤ :=
  (jsTrunc (x / cellSize), jsTrunc (y / cellSize))

/-- `getXYCentre: (col, row) => [col * cellSize + cellSize / 2, row * cellSize + cellSize / 2]` -/
def getXYCentre (cellSize : ℚ) (col row : ℤ) : ℚ × ℚ :=
  (col * cellSize + cellSize / 2, row * cellSize + cellSize / 2)

/-- `getBoundary(col, row, padding)`: `adjCellSize = padding ? cellSize - padding * 2 : cellSize`
(JavaScript truthiness: `padding` is falsy exactly when it is `0`, for the
numeric paddings used here), then the four corners around the cell centre. -/
def getBoundary (cellSize : ℚ) (col row : ℤ) (padding : ℚ) : List (ℚ × ℚ) :=
  let adjCellSize := if padding = 0 then cellSize else cellSize - padding * 2
  let xy := getXYCentre cellSize col row
  [ (xy.1 - adjCellSize / 2, xy.2 - adjCellSize / 2)
  , (xy.1 + adjCellSize / 2, xy.2 - adjCellSize / 2)
  , (xy.1 + adjCellSize / 2, xy.2 + adjCellSize / 2)
  , (xy.1 - adjCellSize / 2, xy.2 + adjCellSize / 2) ]

end GridDiscretiser

/-- Modelled from the spec: "`boundaryOf(col,row,padding)` returns the 4
corners of the axis-aligned square of side `s - 2*padding` centered on
`centerOf`, in consistent winding order". The corners of the axis-aligned
square of the given side centred at `c`, in the winding order
top-left, top-right, bottom-right, bottom-left. -/
def squareCornersSpec (c : ℚ × ℚ) (side : ℚ) : List (ℚ × ℚ) :=
  [ (c.1 - side / 2, c.2 - side / 2)
  , (c.1 + side / 2, c.2 - side / 2)
  , (c.1 + side / 2, c.2 + side / 2)
  , (c.1 - side / 2, c.2 + side / 2) ]

/-! ### Hexagonal discretizer (`_getHexDiscretiser` in hexdiscretizer.js)

In the source, `RADIUS = Math.trunc(cellSize * 1.3 / 2)` and
`HEIGHT = Math.trunc(RADIUS * Math.sqrt(3))`; both are positive integers for
any `cellSize ≥ 2`. The definitions below are parameterised by the two
precomputed parameters `R` (RADIUS) and `H` (HEIGHT); the theorems quantify
over all positive values of the parameters, so they in particular cover the
values computed by the source. `SIDE = RADIUS * 3 / 2` is computed exactly.
JavaScript `%` on integers is truncated remainder (`Int.tmod`): `(-1) % 2`
is `-1` in JavaScript. -/

namespace HexDiscretiser

/-- `SIDE = RADIUS * 3 / 2` -/
def SIDE (R : ℚ) : ℚ := R * 3 / 2

/-- `ci = Math.floor(x / SIDE)` -/
def ci (R x : ℚ) : ℤ := ⌊x / SIDE R⌋

/-- `cx = x - SIDE * ci` -/
def cx (R x : ℚ) : ℚ := x - SIDE R * ci R x

/-- `ty = y - ((ci % 2) * HEIGHT) / 2` -/
def ty (R H x y : ℚ) : ℚ := y - ((Int.tmod (ci R x) 2 : ℚ) * H) / 2

/-- `cj = Math.floor(ty / HEIGHT)` -/
def cj (R H x y : ℚ) : ℤ := ⌊ty R H x y / H⌋

/-- `cy = ty - HEIGHT * cj` -/
def cy (R H x y : ℚ) : ℚ := ty R H x y - H * cj R H x y

/-- `getColRow` of the hex discretizer: estimate a column and row, then
correct against the slanted edge
(`cx > Math.abs(RADIUS / 2 - RADIUS * cy / HEIGHT)`). -/
def getColRow (R H x y : ℚ) : ℤ × ℤ :=
  if |R / 2 - R * cy R H x y / H| < cx R x then
    (ci R x, cj R H x y)
  else
    (ci R x - 1,
     cj R H x y + Int.tmod (ci R x) 2 - (if cy R H x y < H / 2 then 1 else 0))

/-- `getXYCentre: xy = [col * SIDE, HEIGHT * (2 * row + col % 2) / 2];
return [xy[0] + RADIUS, xy[1] + HEIGHT / 2]` -/
def getXYCentre (R H : ℚ) (col row : ℤ) : ℚ × ℚ :=
  (col * SIDE R + R,
   (H * (2 * row + (Int.tmod col 2 : ℚ))) / 2 + H / 2)

theorem SIDE_pos {R : ℚ} (hR : 0 < R) : 0 < SIDE R := by
  unfold SIDE; positivity

theorem ci_centre {R H : ℚ} (hR : 0 < R) (col row : ℤ) :
    ci R (getXYCentre R H col row).1 = col := by
  have hs : SIDE R ≠ 0 := ne_of_gt (SIDE_pos hR)
  have hdiv : (getXYCentre R H col row).1 / SIDE R = (col : ℚ) + 2 / 3 := by
    unfold getXYCentre SIDE at *
    field_simp
    ring
  unfold ci
  rw [hdiv, Int.floor_int_add]
  norm_num

theorem cx_centre {R H : ℚ} (hR : 0 < R) (col row : ℤ) :
    cx R (getXYCentre R H col row).1 = R := by
  unfold cx
  rw [ci_centre (H := H) hR col row]
  unfold getXYCentre
  ring

theorem ty_centre {R H : ℚ} (hR : 0 < R) (col row : ℤ) :
    ty R H (getXYCentre R H col row).1 (getXYCentre R H col row).2
      = H * row + H / 2 := by
  unfold ty
  rw [ci_centre (H := H) hR col row]
  show (getXYCentre R H col row).2 - _ = _
  unfold getXYCentre
  push_cast
  ring

theorem cj_centre {R H : ℚ} (hR : 0 < R) (hH : 0 < H) (col row : ℤ) :
    cj R H (getXYCentre R H col row).1 (getXYCentre R H col row).2 = row := by
  have hh : H ≠ 0 := ne_of_gt hH
  unfold cj
  rw [ty_centre hR col row]
  have hdiv : (H * row + H / 2) / H = (row : ℚ) + 1 / 2 := by
    field_simp; ring
  rw [hdiv, Int.floor_int_add]
  norm_num

theorem cy_centre {R H : ℚ} (hR : 0 < R) (hH : 0 < H) (col row : ℤ) :
    cy R H (getXYCentre R H col row).1 (getXYCentre R H col row).2 = H / 2 := by
  unfold cy
  rw [ty_centre hR col row, cj_centre hR hH col row]
  ring

/-- Round trip of the hexagonal discretizer: the centre of every cell maps
back to that cell, for arbitrary positive precomputed parameters. -/
theorem getColRow_getXYCentre {R H : ℚ} (hR : 0 < R) (hH : 0 < H)
    (col row : ℤ) :
    getColRow R H (getXYCentre R H col row).1 (getXYCentre R H col row).2
      = (col, row) := by
  have hh : H ≠ 0 := ne_of_gt hH
  unfold getColRow
  rw [cy_centre hR hH col row, cx_centre hR col row,
      ci_centre (H := H) hR col row, cj_centre hR hH col row]
  have habs : |R / 2 - R * (H / 2) / H| = 0 := by
    rw [abs_eq_zero]
    field_simp
    ring
  rw [if_pos (by rw [habs]; exact hR)]

end HexDiscretiser

/-! ### Claims C1, C2, C8: discretizer geometry -/

theorem squareColRow_centre_nonneg {s : ℚ} (hs : 0 < s) (col row : ℤ)
    (hc : 0 ≤ col) (hr : 0 ≤ row) :
    GridDiscretiser.getColRow s (GridDiscretiser.getXYCentre s col row).1
      (GridDiscretiser.getXYCentre s col row).2 = (col, row) := by
  have hs0 : s ≠ 0 := ne_of_gt hs
  have key : ∀ k : ℤ, 0 ≤ k → jsTrunc (((k : ℚ) * s + s / 2) / s) = k := by
    intro k hk
    have hdiv : ((k : ℚ) * s + s / 2) / s = (k : ℚ) + 1 / 2 := by
      field_simp; ring
    have hnn : 0 ≤ ((k : ℚ) * s + s / 2) / s := by
      rw [hdiv]
      have : (0 : ℚ) ≤ (k : ℚ) := by exact_mod_cast hk
      linarith
    rw [jsTrunc_of_nonneg _ hnn, hdiv, Int.floor_int_add]
    norm_num
  unfold GridDiscretiser.getColRow GridDiscretiser.getXYCentre
  simp only
  rw [key col hc, key row hr]

/-- C1 (amended): the round trip `colRowOf (centerOf (col,row)) = (col,row)`
holds for the hexagonal discretizer at every integer pair, and for the
square discretizer at every pair with `col ≥ 0` and `row ≥ 0`; because the
square discretizer truncates toward zero instead of flooring, the round
trip fails for negative indices (see the counterexample). -/
theorem roundtrip_centre_colrow (s R H : ℚ) (col row : ℤ)
    (hs : 0 < s) (hR : 0 < R) (hH : 0 < H) :
    (0 ≤ col → 0 ≤ row →
      GridDiscretiser.getColRow s (GridDiscretiser.getXYCentre s col row).1
        (GridDiscretiser.getXYCentre s col row).2 = (col, row)) ∧
    HexDiscretiser.getColRow R H (HexDiscretiser.getXYCentre R H col row).1
      (HexDiscretiser.getXYCentre R H col row).2 = (col, row) := by
  exact ⟨fun hc hr => squareColRow_centre_nonneg hs col row hc hr,
         HexDiscretiser.getColRow_getXYCentre hR hH col row⟩

theorem roundtrip_centre_colrow_witness :
    ((0 ≤ (3 : ℤ) → 0 ≤ (4 : ℤ) →
      GridDiscretiser.getColRow 10 (GridDiscretiser.getXYCentre 10 3 4).1
        (GridDiscretiser.getXYCentre 10 3 4).2 = (3, 4)) ∧
    HexDiscretiser.getColRow 13 22 (HexDiscretiser.getXYCentre 13 22 3 4).1
      (HexDiscretiser.getXYCentre 13 22 3 4).2 = (3, 4)) :=
  roundtrip_centre_colrow 10 13 22 3 4 (by norm_num) (by norm_num) (by norm_num)

/-- C1 (counterexample): for the square discretizer with cell size 10, the
centre of cell `(-1, 0)` is `(-5, 5)`; neither coordinate lies on a cell
boundary (an integer multiple of the cell size), yet `getColRow` returns
`(0, 0)`, not `(-1, 0)`: `Math.trunc((-5)/10) = 0` while the cell index of
that centre is `-1`. -/
theorem roundtrip_centre_colrow_counterexample :
    GridDiscretiser.getXYCentre 10 (-1) 0 = (-5, 5) ∧
    GridDiscretiser.getColRow 10 (-5) 5 = (0, 0) ∧
    ((0 : ℤ), (0 : ℤ)) ≠ ((-1 : ℤ), (0 : ℤ)) ∧
    ¬(∃ k : ℤ, (-5 : ℚ) = k * 10) ∧ ¬(∃ k : ℤ, (5 : ℚ) = k * 10) := by
  refine ⟨?_, ?_, by decide, ?_, ?_⟩
  · unfold GridDiscretiser.getXYCentre
    norm_num
  · unfold GridDiscretiser.getColRow jsTrunc
    norm_num
  · rintro ⟨k, hk⟩
    have hk2 : (k : ℚ) = -1 / 2 := by linarith
    have : ((-1 : ℚ) / 2) = ((k : ℤ) : ℚ) := hk2.symm
    have hfl : ⌊((-1 : ℚ) / 2)⌋ = k := by rw [this, Int.floor_intCast]
    have : ⌊((-1 : ℚ) / 2)⌋ = -1 := by norm_num
    have hk1 : k = -1 := by omega
    rw [hk1] at hk2
    norm_num at hk2
  · rintro ⟨k, hk⟩
    have hk2 : (k : ℚ) = 1 / 2 := by linarith
    have : ((1 : ℚ) / 2) = ((k : ℤ) : ℚ) := hk2.symm
    have hfl : ⌊((1 : ℚ) / 2)⌋ = k := by rw [this, Int.floor_intCast]
    have : ⌊((1 : ℚ) / 2)⌋ = 0 := by norm_num
    have hk1 : k = 0 := by omega
    rw [hk1] at hk2
    norm_num at hk2

/-- C2 (amended): for the square discretizer with cell size `s > 0`,
`getColRow (x, y) = (trunc (x/s), trunc (y/s))` (truncation toward zero,
which agrees with `(floor (x/s), floor (y/s))` whenever `x ≥ 0` and
`y ≥ 0`, but not for negative coordinates), and
`getXYCentre (col, row) = (col*s + s/2, row*s + s/2)` for all integers. -/
theorem squareDiscretiser_formulas (s x y : ℚ) (col row : ℤ) (hs : 0 < s) :
    GridDiscretiser.getColRow s x y = (jsTrunc (x / s), jsTrunc (y / s)) ∧
    (0 ≤ x → 0 ≤ y →
      GridDiscretiser.getColRow s x y = (⌊x / s⌋, ⌊y / s⌋)) ∧
    GridDiscretiser.getXYCentre s col row
      = (col * s + s / 2, row * s + s / 2) := by
  refine ⟨rfl, fun hx hy => ?_, rfl⟩
  unfold GridDiscretiser.getColRow
  rw [jsTrunc_of_nonneg _ (div_nonneg hx hs.le),
      jsTrunc_of_nonneg _ (div_nonneg hy hs.le)]

theorem squareDiscretiser_formulas_witness :
    (GridDiscretiser.getColRow 10 25 37
        = (jsTrunc (25 / 10), jsTrunc (37 / 10)) ∧
     (0 ≤ (25 : ℚ) → 0 ≤ (37 : ℚ) →
       GridDiscretiser.getColRow 10 25 37 = (⌊(25 : ℚ) / 10⌋, ⌊(37 : ℚ) / 10⌋)) ∧
     GridDiscretiser.getXYCentre 10 (-2) 3
        = (((-2 : ℤ) : ℚ) * 10 + 10 / 2, ((3 : ℤ) : ℚ) * 10 + 10 / 2)) :=
  squareDiscretiser_formulas 10 25 37 (-2) 3 (by norm_num)

/-- C2 (counterexample): with cell size `10` and coordinates `(-5, -5)`,
the code computes `(Math.trunc(-0.5), Math.trunc(-0.5)) = (0, 0)`, whereas
the claimed `(floor(-0.5), floor(-0.5))` is `(-1, -1)`. -/
theorem squareDiscretiser_formulas_counterexample :
    GridDiscretiser.getColRow 10 (-5) (-5) = (0, 0) ∧
    (⌊(-5 : ℚ) / 10⌋, ⌊(-5 : ℚ) / 10⌋) = ((-1 : ℤ), (-1 : ℤ)) ∧
    ((0 : ℤ), (0 : ℤ)) ≠ ((-1 : ℤ), (-1 : ℤ)) := by
  refine ⟨?_, ?_, by decide⟩
  · unfold GridDiscretiser.getColRow jsTrunc
    norm_num
  · norm_num

/-- C8 (confirmed): for every padding `p` (including `0`), the square
discretizer boundary is exactly the list of 4 corners of the axis-aligned
square of side `s - 2p` centred at `getXYCentre (col, row)`, in the same
winding order in the padded and unpadded case; padding only shrinks the
cell symmetrically around its unchanged centre. -/
theorem squareBoundary_corners (s : ℚ) (col row : ℤ) (p : ℚ) :
    GridDiscretiser.getBoundary s col row p
      = squareCornersSpec (GridDiscretiser.getXYCentre s col row) (s - 2 * p) := by
  unfold GridDiscretiser.getBoundary squareCornersSpec
  by_cases hp : p = 0
  · subst hp; norm_num
  · simp only [if_neg hp]
    have harg : s - p * 2 = s - 2 * p := by ring
    rw [harg]

/-! ### Data processor values (`data-processor.js`)

Record values flowing through `_applyAggregation` are JavaScript numbers,
strings, `null`, or `NaN`. `JSVal.num q` models the number `q`;
non-integer number-to-string conversion is only approximated (the inputs
used in the theorems below are integers, where `toString` of the numerator
matches JavaScript exactly). -/

inductive JSVal : Type where
  | num (q : ℚ)
  | str (s : String)
  | null
  | nan
deriving DecidableEq

/-- JavaScript `ToString` for the modelled values (exact for integers and
strings, which are the only shapes the theorems below evaluate). -/
def jsValToString : JSVal → String
  | .num q => if q.den = 1 then toString q.num else toString q
  | .str s => s
  | .null => "null"
  | .nan => "NaN"

/-- JavaScript `ToNumber` for non-string values (`none` models `NaN`).
String-to-number parsing is approximated as `NaN`; no theorem below
evaluates `ToNumber` on a string. -/
def jsToNum : JSVal → Option ℚ
  | .num q => some q
  | .str _ => none
  | .null => some 0
  | .nan => none

/-- JavaScript `+`: if either operand is a string the result is the
concatenation of the two operands converted to strings, otherwise numeric
addition (with `NaN` absorbing). -/
def jsAdd (a b : JSVal) : JSVal :=
  match a, b with
  | .str s, _ => .str (s ++ jsValToString b)
  | _, .str s => .str (jsValToString a ++ s)
  | _, _ =>
    match jsToNum a, jsToNum b with
    | some x, some y => .num (x + y)
    | _, _ => .nan

/-- `values.reduce((sum, val) => sum + val, 0)` -/
def jsSum (values : List JSVal) : JSVal :=
  values.foldl jsAdd (.num 0)

/-- JavaScript division of an aggregate by a count `n`. In every call site
below `n` is `values.length ≥ 1`; the `n = 0` branch (JavaScript would
produce `NaN` or an infinity) is modelled as `NaN` and is unreachable. -/
def jsDiv (a : JSVal) (n : ℕ) : JSVal :=
  match a with
  | .num x => if n = 0 then .nan else .num (x / n)
  | .str _ => .nan
  | .null => if n = 0 then .nan else .num 0
  | .nan => .nan

/-- Keys of the `frequency` object built by the MODE/FREQUENCY cases, in
insertion order, which for the object in the source is the order of first
occurrence of each (stringified) value. (JavaScript additionally reorders
integer-like keys numerically; the concrete inputs of the theorems below
use keys where insertion order applies.) -/
def firstOccKeys (l : List String) : List String :=
  l.foldl (fun acc k => if k ∈ acc then acc else acc ++ [k]) []

/-- `frequency[a]`: the number of occurrences of the stringified value `a`. -/
def keyCount (values : List JSVal) (k : String) : ℕ :=
  (values.map jsValToString).count k

/-- The MODE case:
`Object.keys(frequency).reduce((a, b) => frequency[a] > frequency[b] ? a : b)`.
`reduce` without an initial value starts from the first key; it is only
reached with non-empty `values` (guarded by `values.length > 0` in
`aggregateCellData`), so the empty case is modelled as `none`. -/
def jsMode (values : List JSVal) : Option String :=
  match firstOccKeys (values.map jsValToString) with
  | [] => none
  | k :: ks =>
      some (ks.foldl (fun a b => if keyCount values a > keyCount values b then a else b) k)

/-- The FREQUENCY case: value→occurrence-count mapping in key order. -/
def jsFrequency (values : List JSVal) : List (String × ℕ) :=
  (firstOccKeys (values.map jsValToString)).map (fun k => (k, keyCount values k))

/-- `jsToNum` with `NaN` as `0`, used only as a sort key below. -/
def jsToNumD (v : JSVal) : ℚ := (jsToNum v).getD 0

/-- Stable ascending insertion used to model `sort((a, b) => a - b)` on
lists of numeric values (equal keys keep their relative order, as
JavaScript sort is stable). -/
def insertAsc (v : JSVal) : List JSVal → List JSVal
  | [] => [v]
  | w :: ws => if jsToNumD v < jsToNumD w then v :: w :: ws else w :: insertAsc v ws

/-- `[...values].sort((a, b) => a - b)`: for all-numeric lists this is the
ascending numeric sort; for lists with non-numeric entries the comparator
returns `NaN` and ECMAScript leaves the order implementation-defined, so
the model keeps the original order in that case. -/
def jsSortNumeric (values : List JSVal) : List JSVal :=
  if values.all (fun v => (jsToNum v).isSome) then
    values.foldr insertAsc []
  else values

/-- Population mean of the `ToNumber` images, used by STD_DEV/VARIANCE when
every value is numeric; with any non-numeric value those cases produce
`NaN` (subtraction from a concatenated-string mean). -/
def numMean (qs : List ℚ) : ℚ := qs.sum / qs.length

/-- Population variance (divide by N). -/
def numVariance (qs : List ℚ) : ℚ :=
  (qs.map (fun q => (q - numMean qs) ^ 2)).sum / qs.length

/-- Aggregation results: plain values, the raw values array (default case),
a frequency table, or the exact square root `sqrtv q` produced by STD_DEV
(represented symbolically since it is irrational in general), or the
`attributes` list of a cell (the shape `Object.assign` can also write). -/
inductive AggValue : Type where
  | v (x : JSVal)
  | arr (xs : List JSVal)
  | freqV (l : List (String × ℕ))
  | sqrtv (q : ℚ)
  | attrsV (l : List (List (String × JSVal)))
deriving DecidableEq

/-- A record (property bag) as an insertion-ordered association list. -/
abbrev Props : Type := List (String × JSVal)

/-- `row[field]` (`none` models `undefined`). -/
def getProp (p : Props) (field : String) : Option JSVal :=
  (List.find? (fun e => e.1 = field) p).map (·.2)

/-- `_applyAggregation(values, aggregationType)` from data-processor.js.
The MIN/MAX cases spread the values into `Math.min`/`Math.max`; with a
non-numeric value they produce `NaN`, and on the empty list (unreachable,
`aggregateCellData` guards `values.length > 0`) JavaScript would produce
an infinity, modelled as `NaN` here. -/
def applyAggregation (values : List JSVal) (aggregationType : String) : AggValue :=
  if aggregationType = "count" then
    .v (.num values.length)
  else if aggregationType = "sum" then
    .v (jsSum values)
  else if aggregationType = "mean" then
    .v (jsDiv (jsSum values) values.length)
  else if aggregationType = "median" then
    let sorted := jsSortNumeric values
    let mid := sorted.length / 2
    if sorted.length % 2 = 0 then
      .v (jsDiv (jsAdd (sorted.getD (mid - 1) .nan) (sorted.getD mid .nan)) 2)
    else
      .v (sorted.getD mid .nan)
  else if aggregationType = "mode" then
    match jsMode values with
    | some k => .v (.str k)
    | none => .v .nan
  else if aggregationType = "min" then
    match values.mapM jsToNum with
    | some qs => .v (.num (qs.foldr min (qs.headD 0)))
    | none => .v .nan
  else if aggregationType = "max" then
    match values.mapM jsToNum with
    | some qs => .v (.num (qs.foldr max (qs.headD 0)))
    | none => .v .nan
  else if aggregationType = "std_dev" then
    match values.mapM jsToNum with
    | some qs => .sqrtv (numVariance qs)
    | none => .v .nan
  else if aggregationType = "variance" then
    match values.mapM jsToNum with
    | some qs => .v (.num (numVariance qs))
    | none => .v .nan
  else if aggregationType = "unique_count" then
    .v (.num values.dedup.length)
  else if aggregationType = "frequency" then
    .freqV (jsFrequency values)
  else
    .arr values

/-! ### Claims C3, C4: aggregation function semantics -/

theorem jsAdd_num_num (a b : ℚ) : jsAdd (.num a) (.num b) = .num (a + b) := rfl

theorem jsAdd_str_right (a : JSVal) (s : String) :
    ∃ u, jsAdd a (.str s) = .str u := by
  cases a <;> exact ⟨_, rfl⟩

theorem jsAdd_str_left (s : String) (b : JSVal) :
    jsAdd (.str s) b = .str (s ++ jsValToString b) := by
  cases b <;> rfl

theorem foldl_jsAdd_str (l : List JSVal) :
    ∀ s : String, ∃ t, l.foldl jsAdd (.str s) = .str t := by
  induction l with
  | nil => exact fun s => ⟨s, rfl⟩
  | cons v tl ih =>
    intro s
    rw [List.foldl_cons, jsAdd_str_left]
    exact ih (s ++ jsValToString v)

theorem jsSum_of_nums (qs : List ℚ) : jsSum (qs.map .num) = .num qs.sum := by
  have aux : ∀ (l : List ℚ) (a : ℚ),
      (l.map JSVal.num).foldl jsAdd (.num a) = .num (a + l.sum) := by
    intro l
    induction l with
    | nil => intro a; simp
    | cons q tl ih =>
      intro a
      simp only [List.map_cons, List.foldl_cons, jsAdd_num_num, ih, List.sum_cons]
      ring_nf
  unfold jsSum
  simpa using aux qs 0

theorem jsSum_str_mem (values : List JSVal) (s : String)
    (hs : JSVal.str s ∈ values) : ∃ t, jsSum values = .str t := by
  obtain ⟨l₁, l₂, rfl⟩ := List.append_of_mem hs
  unfold jsSum
  rw [List.foldl_append]
  obtain ⟨u, hu⟩ := jsAdd_str_right (l₁.foldl jsAdd (.num 0)) s
  rw [List.foldl_cons, hu]
  exact foldl_jsAdd_str l₂ u

theorem applyAggregation_sum (values : List JSVal) :
    applyAggregation values "sum" = .v (jsSum values) := rfl

theorem applyAggregation_mean (values : List JSVal) :
    applyAggregation values "mean" = .v (jsDiv (jsSum values) values.length) := rfl

/-- C4 (amended): SUM and MEAN fold JavaScript `+` over all the (non-null)
values: when every value is numeric the results are the numeric sum and the
numeric mean, but a non-numeric (string) entry is not excluded - it is
coerced, turning the accumulation into string concatenation (see the
counterexample). -/
theorem sumMean_numeric_values (qs : List ℚ) (values : List JSVal) (s : String)
    (hq : qs ≠ []) (hs : JSVal.str s ∈ values) :
    applyAggregation (qs.map .num) "sum" = .v (.num qs.sum) ∧
    applyAggregation (qs.map .num) "mean"
      = .v (.num (qs.sum / (qs.length : ℚ))) ∧
    (∃ t, applyAggregation values "sum" = .v (.str t)) := by
  refine ⟨?_, ?_, ?_⟩
  · rw [applyAggregation_sum, jsSum_of_nums]
  · rw [applyAggregation_mean, jsSum_of_nums]
    have hlen : (qs.map JSVal.num).length ≠ 0 := by
      simpa using fun h => hq (List.eq_nil_of_length_eq_zero h)
    unfold jsDiv
    simp only [List.length_map] at hlen ⊢
    simp [hlen]
  · obtain ⟨t, ht⟩ := jsSum_str_mem values s hs
    exact ⟨t, by rw [applyAggregation_sum, ht]⟩

theorem sumMean_numeric_values_witness :
    applyAggregation ([1, 2, 3, 4].map .num) "sum" = .v (.num ([1, 2, 3, 4] : List ℚ).sum) ∧
    applyAggregation ([1, 2, 3, 4].map .num) "mean"
      = .v (.num (([1, 2, 3, 4] : List ℚ).sum / (([1, 2, 3, 4] : List ℚ).length : ℚ))) ∧
    (∃ t, applyAggregation [JSVal.num 1, .str "a"] "sum" = .v (.str t)) :=
  sumMean_numeric_values [1, 2, 3, 4] [JSVal.num 1, .str "a"] "a"
    (by simp) (by simp)

/-- C4 (counterexample): on the values `[1, "a"]` the SUM case computes
`0 + 1 + "a" = "1a"` (string concatenation), not the sum `1` of the numeric
values only - the non-numeric entry is coerced, not excluded. -/
theorem sumMean_numeric_values_counterexample :
    applyAggregation [JSVal.num 1, .str "a"] "sum" = .v (.str "1a") ∧
    AggValue.v (.str "1a") ≠ .v (.num 1) := by
  constructor
  · rw [applyAggregation_sum]
    unfold jsSum
    rw [List.foldl_cons, jsAdd_num_num]
    norm_num
    have h1 : jsAdd (.num 1) (.str "a") = .str (jsValToString (.num 1) ++ "a") := rfl
    rw [h1]
    rfl
  · decide

theorem mem_firstOccKeys_aux (l : List String) :
    ∀ (acc : List String) (x : String),
      (x ∈ l.foldl (fun a k => if k ∈ a then a else a ++ [k]) acc)
        ↔ (x ∈ acc ∨ x ∈ l) := by
  induction l with
  | nil => intro acc x; simp
  | cons k t ih =>
    intro acc x
    rw [List.foldl_cons, ih]
    by_cases hk : k ∈ acc
    · simp only [if_pos hk, List.mem_cons]
      constructor
      · rintro (h | h)
        · exact Or.inl h
        · exact Or.inr (Or.inr h)
      · rintro (h | h | h)
        · exact Or.inl h
        · exact Or.inl (h ▸ hk)
        · exact Or.inr h
    · simp only [if_neg hk, List.mem_append, List.mem_singleton, List.mem_cons]
      tauto

theorem mem_firstOccKeys (l : List String) (x : String) :
    x ∈ firstOccKeys l ↔ x ∈ l := by
  unfold firstOccKeys
  rw [mem_firstOccKeys_aux]
  simp

theorem firstOccKeys_ne_nil {l : List String} (h : l ≠ []) :
    firstOccKeys l ≠ [] := by
  obtain ⟨k, t, rfl⟩ := List.exists_cons_of_ne_nil h
  intro hc
  have : k ∈ firstOccKeys (k :: t) := (mem_firstOccKeys _ _).mpr (by simp)
  rw [hc] at this
  exact absurd this (List.not_mem_nil k)

/-- The `reduce((a, b) => frequency[a] > frequency[b] ? a : b)` fold: its
result splits the key list into an initial part, the result itself, and a
tail in which every key has strictly smaller frequency; the result has
maximal frequency overall.  This pins the tie-breaking: among keys of
maximal frequency, the result is the one iterated last. -/
theorem foldl_mode_split (cnt : String → ℕ) :
    ∀ (ks : List String) (a : String),
      ∃ l₁ l₂,
        a :: ks
          = l₁ ++ (ks.foldl (fun x y => if cnt x > cnt y then x else y) a) :: l₂
        ∧ (∀ k ∈ a :: ks,
            cnt k ≤ cnt (ks.foldl (fun x y => if cnt x > cnt y then x else y) a))
        ∧ (∀ k ∈ l₂,
            cnt k < cnt (ks.foldl (fun x y => if cnt x > cnt y then x else y) a)) := by
  intro ks
  induction ks with
  | nil =>
    intro a
    exact ⟨[], [], by simp, by simp, by simp⟩
  | cons b t ih =>
    intro a
    by_cases hab : cnt a > cnt b
    · obtain ⟨l₁, l₂, hsplit, hbound, hstrict⟩ := ih a
      rw [List.foldl_cons, if_pos hab]
      set r := t.foldl (fun x y => if cnt x > cnt y then x else y) a with hr
      cases l₁ with
      | nil =>
        simp only [List.nil_append] at hsplit
        obtain ⟨hra, hl₂⟩ := List.cons.inj hsplit
        refine ⟨[], b :: t, ?_, ?_, ?_⟩
        · simp [← hra, hl₂]
        · intro k hk
          rcases List.mem_cons.mp hk with h | hk2
          · rw [h]; exact hbound a (by simp)
          · rcases List.mem_cons.mp hk2 with h | hk3
            · rw [h, ← hra]; omega
            · exact hbound k (by simp [hk3])
        · intro k hk
          rcases List.mem_cons.mp hk with h | hk2
          · rw [h, ← hra]; omega
          · exact hstrict k (hl₂ ▸ hk2)
      | cons c t₁ =>
        simp only [List.cons_append] at hsplit
        obtain ⟨hca, ht⟩ := List.cons.inj hsplit
        refine ⟨a :: b :: t₁, l₂, ?_, ?_, ?_⟩
        · simp [ht]
        · intro k hk
          rcases List.mem_cons.mp hk with h | hk2
          · rw [h]; exact hbound a (by simp)
          · rcases List.mem_cons.mp hk2 with h | hk3
            · rw [h]
              have := hbound a (by simp)
              omega
            · exact hbound k (by simp [hk3])
        · exact hstrict
    · obtain ⟨l₁, l₂, hsplit, hbound, hstrict⟩ := ih b
      rw [List.foldl_cons, if_neg hab]
      set r := t.foldl (fun x y => if cnt x > cnt y then x else y) b with hr
      refine ⟨a :: l₁, l₂, ?_, ?_, ?_⟩
      · simpa using hsplit
      · intro k hk
        rcases List.mem_cons.mp hk with h | hk2
        · rw [h]
          have := hbound b (by simp)
          omega
        · exact hbound k hk2
      · exact hstrict

theorem applyAggregation_mode (values : List JSVal) :
    applyAggregation values "mode"
      = (match jsMode values with
         | some k => AggValue.v (.str k)
         | none => AggValue.v .nan) := rfl

/-- C3 (amended): on a non-empty list of values the MODE case returns a
(stringified) value of maximal frequency, but a tie between values of
maximal frequency is broken in favour of the one iterated LAST in the
frequency object's key order (the order of first occurrence for
non-index-like keys), not first: the `reduce` keeps the accumulator only
on a strictly greater count. -/
theorem modeAggregation_tiebreak (values : List JSVal) (h : values ≠ []) :
    ∃ m l₁ l₂,
      applyAggregation values "mode" = .v (.str m) ∧
      firstOccKeys (values.map jsValToString) = l₁ ++ m :: l₂ ∧
      (∀ v ∈ values, keyCount values (jsValToString v) ≤ keyCount values m) ∧
      (∀ k ∈ l₂, keyCount values k < keyCount values m) := by
  have hmap : values.map jsValToString ≠ [] := by
    intro hc
    exact h (List.map_eq_nil_iff.mp hc)
  have hkeys : firstOccKeys (values.map jsValToString) ≠ [] :=
    firstOccKeys_ne_nil hmap
  obtain ⟨k, ks, hks⟩ := List.exists_cons_of_ne_nil hkeys
  have hmode : jsMode values
      = some (ks.foldl
          (fun a b => if keyCount values a > keyCount values b then a else b) k) := by
    unfold jsMode
    rw [hks]
  obtain ⟨l₁, l₂, hsplit, hbound, hstrict⟩ := foldl_mode_split (keyCount values) ks k
  refine ⟨ks.foldl (fun x y => if keyCount values x > keyCount values y then x else y) k,
    l₁, l₂, ?_, ?_, ?_, ?_⟩
  · rw [applyAggregation_mode, hmode]
  · rw [hks]; exact hsplit
  · intro v hv
    have hmem : jsValToString v ∈ firstOccKeys (values.map jsValToString) :=
      (mem_firstOccKeys _ _).mpr (List.mem_map_of_mem _ hv)
    rw [hks] at hmem
    exact hbound _ hmem
  · exact hstrict

theorem modeAggregation_tiebreak_witness :
    ∃ m l₁ l₂,
      applyAggregation [JSVal.num 1, .num 2, .num 2] "mode" = .v (.str m) ∧
      firstOccKeys ([JSVal.num 1, .num 2, .num 2].map jsValToString)
        = l₁ ++ m :: l₂ ∧
      (∀ v ∈ [JSVal.num 1, .num 2, .num 2],
        keyCount [JSVal.num 1, .num 2, .num 2] (jsValToString v)
          ≤ keyCount [JSVal.num 1, .num 2, .num 2] m) ∧
      (∀ k ∈ l₂,
        keyCount [JSVal.num 1, .num 2, .num 2] k
          < keyCount [JSVal.num 1, .num 2, .num 2] m) :=
  modeAggregation_tiebreak [JSVal.num 1, .num 2, .num 2] (by simp)

/-- C3 (counterexample): on `["a", "b"]` both values have frequency 1 and
`"a"` occurs first, so the claimed first-occurrence tie-break would return
`"a"`; the code returns `"b"` (the last key of maximal frequency). -/
theorem modeAggregation_tiebreak_counterexample :
    applyAggregation [JSVal.str "a", .str "b"] "mode" = .v (.str "b") ∧
    keyCount [JSVal.str "a", .str "b"] "a"
      = keyCount [JSVal.str "a", .str "b"] "b" ∧
    firstOccKeys ([JSVal.str "a", .str "b"].map jsValToString) = ["a", "b"] ∧
    ("b" : String) ≠ "a" :=
  ⟨rfl, rfl, rfl, by decide⟩

/-! ### Claims C5, C6: static-mode cache (`src/index.js`)

`_generateDataHash` folds `hash = ((hash << 5) - hash + lat + lng) & 0xffffffff`
over the layer points and returns the string `hash + "_" + count`; since the
separator cannot occur in the count, string equality of two such hashes is
equality of the (hash, count) pairs, which is how the hash is modelled.
JavaScript `x & 0xffffffff` is `ToInt32`: truncate toward zero, reduce
modulo `2^32` into the signed range. -/

def toInt32 (n : ℤ) : ℤ :=
  let m := n % 4294967296
  if m < 2147483648 then m else m - 4294967296

/-- `ToInt32` applied to a (possibly fractional) JavaScript number. -/
def jsToInt32 (q : ℚ) : ℤ := toInt32 (jsTrunc q)

/-- One step of `_generateDataHash`:
`hash = ((hash << 5) - hash + latLng.lat + latLng.lng) & 0xffffffff`
(`hash << 5` operates on the previous 32-bit value). -/
def hashStep (h : ℤ) (lat lng : ℚ) : ℤ :=
  jsToInt32 ((toInt32 (h * 32) : ℚ) - h + lat + lng)

/-- `_generateDataHash`: the rolling hash over all layer points plus the
point count. -/
def generateDataHash (points : List (ℚ × ℚ)) : ℤ × ℕ :=
  (points.foldl (fun h p => hashStep h p.1 p.2) 0, points.length)

/-- The full comparison key of `_needsRecalculation`: grid-aligned origin
(two scalars), zoom, grid size, padding, grid type, data hash. -/
structure CacheKey where
  gridOriginX : ℚ
  gridOriginY : ℚ
  zoom : ℤ
  gridSize : ℚ
  padding : ℚ
  gridType : String
  dataHash : ℤ × ℕ
deriving DecidableEq

/-- The `_cached*` fields of the layer; `none` models the `null` each field
holds before any `_updateCache` (or after `invalidateCache`). -/
structure CachedState where
  gridOriginX : Option ℚ
  gridOriginY : Option ℚ
  zoom : Option ℤ
  gridSize : Option ℚ
  padding : Option ℚ
  gridType : Option String
  dataHash : Option (ℤ × ℕ)
deriving DecidableEq

/-- `_needsRecalculation`: true iff any of the compared components differs
from its cached value (`!==` comparisons joined by `||`). -/
def needsRecalculation (c : CachedState) (k : CacheKey) : Bool :=
  decide (c.gridOriginX ≠ some k.gridOriginX)
    || decide (c.gridOriginY ≠ some k.gridOriginY)
    || decide (c.zoom ≠ some k.zoom)
    || decide (c.gridSize ≠ some k.gridSize)
    || decide (c.padding ≠ some k.padding)
    || decide (c.gridType ≠ some k.gridType)
    || decide (c.dataHash ≠ some k.dataHash)

/-- `_updateCache`: record every compared component. -/
def updateCache (k : CacheKey) : CachedState :=
  ⟨some k.gridOriginX, some k.gridOriginY, some k.zoom, some k.gridSize,
   some k.padding, some k.gridType, some k.dataHash⟩

/-- The map/layer/configuration state the key is computed from. -/
structure MapState where
  nwX : ℚ
  nwY : ℚ
  zoom : ℤ
  gridSize : ℚ
  padding : ℚ
  gridType : String
  points : List (ℚ × ℚ)

/-- The current comparison key: the viewport origin is grid-aligned with
`Math.floor(northWest.x / gridSize) * gridSize`, and the data hash is
recomputed from the layer. -/
def computeCacheKey (ms : MapState) : CacheKey :=
  { gridOriginX := (⌊ms.nwX / ms.gridSize⌋ : ℚ) * ms.gridSize
    gridOriginY := (⌊ms.nwY / ms.gridSize⌋ : ℚ) * ms.gridSize
    zoom := ms.zoom
    gridSize := ms.gridSize
    padding := ms.padding
    gridType := ms.gridType
    dataHash := generateDataHash ms.points }

theorem needsRecalculation_eq_false_iff (c : CachedState) (k : CacheKey) :
    needsRecalculation c k = false ↔ c = updateCache k := by
  unfold needsRecalculation updateCache
  simp only [Bool.or_eq_false_iff, decide_eq_false_iff_not, not_not]
  constructor
  · rintro ⟨⟨⟨⟨⟨⟨h1, h2⟩, h3⟩, h4⟩, h5⟩, h6⟩, h7⟩
    cases c
    simp_all
  · rintro rfl
    simp

/-- C5 (confirmed): in static mode, `_needsRecalculation` returns `false`
(the cached snapshot may be reused) if and only if all six compared
components - grid-aligned origin, zoom, grid size, padding, grid type and
data-content hash - equal the values recorded by `_updateCache` for the
current map state. -/
theorem needsRecalculation_cache_hit_iff (c : CachedState) (ms : MapState) :
    needsRecalculation c (computeCacheKey ms) = false
      ↔ (c.gridOriginX = some (computeCacheKey ms).gridOriginX ∧
         c.gridOriginY = some (computeCacheKey ms).gridOriginY ∧
         c.zoom = some (computeCacheKey ms).zoom ∧
         c.gridSize = some (computeCacheKey ms).gridSize ∧
         c.padding = some (computeCacheKey ms).padding ∧
         c.gridType = some (computeCacheKey ms).gridType ∧
         c.dataHash = some (computeCacheKey ms).dataHash) := by
  rw [needsRecalculation_eq_false_iff]
  constructor
  · rintro rfl
    exact ⟨rfl, rfl, rfl, rfl, rfl, rfl, rfl⟩
  · rintro ⟨h1, h2, h3, h4, h5, h6, h7⟩
    cases c
    simp_all [updateCache]

/-- The engine state relevant to `calculateGridData` in static mode: the
mode flag, the cached key components and the current grid snapshot
(of an arbitrary content type `γ`). -/
structure Engine (γ : Type) where
  dynamicMode : Bool
  cache : CachedState
  gridData : γ

/-- `calculateGridData(bounds)`: in dynamic mode return immediately; in
static mode return with the cached snapshot untouched when
`_needsRecalculation` is false (cache hit), otherwise rebuild the snapshot
(`compute` stands for the `_calculateSquareGridData`/`_calculateHexagonGridData`
dispatch, a deterministic function of the map/layer state) and record the
new key with `_updateCache`. The boolean result reports whether a
recomputation was performed. -/
def calculateGridData {γ : Type} (compute : MapState → γ)
    (e : Engine γ) (ms : MapState) : Engine γ × Bool :=
  if e.dynamicMode then (e, false)
  else if needsRecalculation e.cache (computeCacheKey ms) = false then (e, false)
  else ({ e with gridData := compute ms, cache := updateCache (computeCacheKey ms) }, true)

/-- C6 (confirmed): in static mode, a second `calculateGridData` with the
same map/layer/configuration state is a cache hit that performs no
recomputation and leaves the whole engine state - in particular the
`GridSnapshot` content - unchanged, whatever the grid computation does. -/
theorem calculateGridData_idempotent {γ : Type} (compute : MapState → γ)
    (e : Engine γ) (ms : MapState) (h : e.dynamicMode = false) :
    calculateGridData compute (calculateGridData compute e ms).1 ms
      = ((calculateGridData compute e ms).1, false) := by
  by_cases hit : needsRecalculation e.cache (computeCacheKey ms) = false
  · simp [calculateGridData, h, hit]
  · have hrec : needsRecalculation (updateCache (computeCacheKey ms))
        (computeCacheKey ms) = false :=
      (needsRecalculation_eq_false_iff _ _).mpr rfl
    simp [calculateGridData, h, hit, hrec]

/-- A concrete engine state and map state for the C6 witness. -/
def engineExample : Engine ℕ := ⟨false, ⟨none, none, none, none, none, none, none⟩, 0⟩

/-- A concrete map state for the C6 witness. -/
def mapStateExample : MapState := ⟨0, 0, 13, 20, 5, "square", [(1, 2), (3, 4)]⟩

theorem calculateGridData_idempotent_witness :
    calculateGridData (fun _ => (7 : ℕ))
        (calculateGridData (fun _ => (7 : ℕ)) engineExample mapStateExample).1
        mapStateExample
      = ((calculateGridData (fun _ => (7 : ℕ)) engineExample mapStateExample).1, false) :=
  calculateGridData_idempotent (fun _ => (7 : ℕ)) engineExample mapStateExample rfl

/-! ### Claim C7: dynamic-mode trailing-edge throttle (`_onDynamicEvent`)

`_onDynamicEvent` clears any pending `setTimeout` and schedules a new one
`dynamicThrottle` milliseconds later.  The timer semantics is embedded as a
state machine whose state is the pending fire time (`none` when no timer is
pending): an event at time `t` replaces the pending fire time by `t + T`;
a pending timer due at or before the next event fires (one recompute) just
before that event is handled; after the last event the pending timer fires. -/

namespace Throttle

/-- `_onDynamicEvent` at time `t`: `clearTimeout` on any pending timer and
`setTimeout(..., dynamicThrottle)`. -/
def onDynamicEvent (T : ℚ) (_pending : Option ℚ) (t : ℚ) : Option ℚ :=
  some (t + T)

/-- Process a chronological list of qualifying interaction events starting
from pending state `pending`; returns the list of times at which the
scheduled recompute (`_updateDynamicGrid`) actually fires. -/
def runEvents (T : ℚ) (pending : Option ℚ) : List ℚ → List ℚ
  | [] =>
    match pending with
    | some f => [f]
    | none => []
  | t :: rest =>
    match pending with
    | some f =>
      if f ≤ t then f :: runEvents T (onDynamicEvent T (some f) t) rest
      else runEvents T (onDynamicEvent T (some f) t) rest
    | none => runEvents T (onDynamicEvent T none t) rest

theorem runEvents_aux (T : ℚ) :
    ∀ (l : List ℚ) (p : ℚ),
      (∀ u ∈ l, u < p) →
      l.Pairwise (fun a b => b < a + T) →
      runEvents T (some p) l = [l.getLastD (p - T) + T] := by
  intro l
  induction l with
  | nil =>
    intro p _ _
    show [p] = [p - T + T]
    norm_num
  | cons u rest ih =>
    intro p hp hw
    have hu : u < p := hp u (by simp)
    rw [runEvents, if_neg (not_le.mpr hu)]
    unfold onDynamicEvent
    rw [ih (u + T) (fun v hv => (List.pairwise_cons.mp hw).1 v hv)
          (List.pairwise_cons.mp hw).2]
    have harg : u + T - T = u := by ring
    rw [harg, List.getLastD_cons]

/-- C7 (confirmed): firing `N ≥ 1` qualifying events all lying within a
window strictly smaller than `throttleMs` (every two event times differ by
less than `T`) yields exactly one recompute, fired `throttleMs` after the
last event: each event cancels and replaces the pending scheduled
recompute (trailing edge), so `N` recomputes never occur. -/
theorem throttle_single_recompute (T : ℚ) (es : List ℚ) (h1 : es ≠ [])
    (h2 : ∀ u ∈ es, ∀ v ∈ es, v - u < T) :
    runEvents T none es = [es.getLast h1 + T] := by
  obtain ⟨e, rest, rfl⟩ := List.exists_cons_of_ne_nil h1
  have hwin : ∀ u ∈ e :: rest, ∀ v ∈ e :: rest, v < u + T := by
    intro u hu v hv
    have := h2 u hu v hv
    linarith
  show runEvents T (onDynamicEvent T none e) rest = _
  unfold onDynamicEvent
  have hpw : rest.Pairwise (fun a b => b < a + T) :=
    List.pairwise_of_forall_mem_list
      (fun a ha b hb => hwin a (by simp [ha]) b (by simp [hb]))
  rw [runEvents_aux T rest (e + T)
        (fun v hv => hwin e (by simp) v (by simp [hv])) hpw]
  rw [List.getLast_eq_getLastD]
  have harg : e + T - T = e := by ring
  rw [harg]

theorem throttle_single_recompute_witness :
    runEvents 10 none [0, 1, 2] = [12] := by
  rw [throttle_single_recompute 10 [0, 1, 2] (by simp)
    (by
      intro u hu v hv
      fin_cases hu <;> fin_cases hv <;> norm_num)]
  have hlast : ([0, 1, 2] : List ℚ).getLast (by simp) = 2 := rfl
  rw [hlast]
  norm_num

end Throttle

/-! ### Claim C9: coordinate transformer (`coordinate-transformer.js`)

The host map is modelled as a record of the operations the transformer
delegates to; `CoordinateTransformer` holds `Option MapInterface`, with
`none` modelling the not-yet-attached state (`this.map` null/undefined).
Every operation checks the map first, so in the detached state each one is
total and returns its degenerate default (never throws). -/

/-- Geographic bounds with the two accessors the transformer uses. -/
structure LatLngBounds where
  northWest : ℚ × ℚ
  southEast : ℚ × ℚ

/-- Screen bounds as returned by `boundsToScreen`. -/
structure ScreenBounds where
  northWest : ℚ × ℚ
  southEast : ℚ × ℚ
  width : ℚ
  height : ℚ
deriving DecidableEq

/-- The host map operations used by the transformer. -/
structure MapInterface where
  latLngToContainerPoint : ℚ × ℚ → ℚ × ℚ
  containerPointToLatLng : ℚ × ℚ → ℚ × ℚ
  getZoom : ℤ
  getCenter : ℚ × ℚ
  getSize : ℚ × ℚ
  getBounds : LatLngBounds
  distanceTo : ℚ × ℚ → ℚ × ℚ → ℚ

namespace CoordinateTransformer

/-- `latLngToScreen`: `if (!this.map) return [0, 0]`. -/
def latLngToScreen (map : Option MapInterface) (latLng : ℚ × ℚ) : ℚ × ℚ :=
  match map with
  | none => (0, 0)
  | some m => m.latLngToContainerPoint latLng

/-- `screenToLatLng`: `if (!this.map) return [0, 0]`. -/
def screenToLatLng (map : Option MapInterface) (screenPoint : ℚ × ℚ) : ℚ × ℚ :=
  match map with
  | none => (0, 0)
  | some m => m.containerPointToLatLng screenPoint

/-- `boundsToScreen`: `if (!this.map || !bounds) return null`. -/
def boundsToScreen (map : Option MapInterface) (bounds : Option LatLngBounds) :
    Option ScreenBounds :=
  match map, bounds with
  | none, _ => none
  | _, none => none
  | some m, some b =>
    let nw := latLngToScreen (some m) b.northWest
    let se := latLngToScreen (some m) b.southEast
    some ⟨nw, se, se.1 - nw.1, se.2 - nw.2⟩

/-- `screenToBounds`: `if (!this.map || !screenBounds) return null`
(the `L.latLngBounds` constructor is modelled as pairing the two
converted corners). -/
def screenToBounds (map : Option MapInterface) (sb : Option ScreenBounds) :
    Option LatLngBounds :=
  match map, sb with
  | none, _ => none
  | _, none => none
  | some m, some b =>
    some ⟨screenToLatLng (some m) b.northWest, screenToLatLng (some m) b.southEast⟩

/-- `metersToPixels`: `if (!this.map) return gridSizeMeters`; otherwise
projects a point `gridSizeMeters / 111320` degrees east of the centre. -/
def metersToPixels (map : Option MapInterface) (gridSizeMeters : ℚ) : ℚ :=
  match map with
  | none => gridSizeMeters
  | some m =>
    let c := m.getCenter
    let centerPoint := m.latLngToContainerPoint c
    let eastPoint := m.latLngToContainerPoint (c.1, c.2 + gridSizeMeters / 111320)
    |eastPoint.1 - centerPoint.1|

/-- `pixelsToMeters`: `if (!this.map) return gridSizePixels`. -/
def pixelsToMeters (map : Option MapInterface) (gridSizePixels : ℚ) : ℚ :=
  match map with
  | none => gridSizePixels
  | some m =>
    let c := m.getCenter
    let centerPoint := m.latLngToContainerPoint c
    let eastPoint := m.containerPointToLatLng (centerPoint.1 + gridSizePixels, centerPoint.2)
    m.distanceTo c eastPoint

/-- The viewport record returned by `getViewport`. -/
structure Viewport where
  width : ℚ
  height : ℚ
  bounds : Option ScreenBounds

/-- `getViewport`: `if (!this.map) return null`. -/
def getViewport (map : Option MapInterface) : Option Viewport :=
  match map with
  | none => none
  | some m =>
    some ⟨m.getSize.1, m.getSize.2, boundsToScreen (some m) (some m.getBounds)⟩

/-- `isPointVisible`: `if (!this.map) return false`. -/
def isPointVisible (map : Option MapInterface) (screenPoint : ℚ × ℚ) : Bool :=
  match map with
  | none => false
  | some m =>
    decide (0 ≤ screenPoint.1) && decide (screenPoint.1 ≤ m.getSize.1)
      && decide (0 ≤ screenPoint.2) && decide (screenPoint.2 ≤ m.getSize.2)

/-- `getZoomAdjustedGridSize`: `if (!this.map) return baseGridSize`;
otherwise `baseGridSize * 2 ^ (currentZoom - baseZoom)`. -/
def getZoomAdjustedGridSize (map : Option MapInterface)
    (baseGridSize : ℚ) (baseZoom : ℤ) : ℚ :=
  match map with
  | none => baseGridSize
  | some m => baseGridSize * (2 : ℚ) ^ (m.getZoom - baseZoom)

end CoordinateTransformer

/-- C9 (confirmed): with no map attached (`map = none`), every
CoordinateTransformer operation is total (never throws) and returns its
degenerate zero/default result: `[0,0]` for the point conversions, `null`
for the bounds conversions and the viewport query, `false` for the
visibility test, and the input value unchanged for the scale conversions
and the zoom-adjusted grid size. -/
theorem coordinateTransformer_detached_defaults (p : ℚ × ℚ)
    (b : Option LatLngBounds) (sb : Option ScreenBounds)
    (g gpx base : ℚ) (baseZoom : ℤ) :
    CoordinateTransformer.latLngToScreen none p = (0, 0) ∧
    CoordinateTransformer.screenToLatLng none p = (0, 0) ∧
    CoordinateTransformer.boundsToScreen none b = none ∧
    CoordinateTransformer.screenToBounds none sb = none ∧
    CoordinateTransformer.metersToPixels none g = g ∧
    CoordinateTransformer.pixelsToMeters none gpx = gpx ∧
    CoordinateTransformer.getViewport none = none ∧
    CoordinateTransformer.isPointVisible none p = false ∧
    CoordinateTransformer.getZoomAdjustedGridSize none base baseZoom = base :=
  ⟨rfl, rfl, by cases b <;> rfl, by cases sb <;> rfl, rfl, rfl, rfl, rfl, rfl⟩

/-! ### Claim C10: dynamic-mode grid computation (`_calculateDynamicGridData`)

A screen-data entry carries the precomputed screen point and the feature
properties (the `latLng`/`data` fields of the source are not read by the
grid computation). The spatial-units lookup is a JavaScript object keyed
by the string `"col,row"`; such keys are never array indices, so the
object preserves insertion order and updating an existing key keeps its
position - modelled as an insertion-ordered association list keyed by the
`(col, row)` pair (the string key is injective in the pair). -/

structure DataPoint where
  screenPoint : ℚ × ℚ
  properties : Props

/-- A spatial unit (cell bucket). `count` and `attributes` are JavaScript
properties that `Object.assign` can later overwrite with arbitrary
aggregation results, so both are typed as `AggValue`; in the accumulation
phase `count` is always a number and `attributes` always a list. `extra`
collects the other properties `Object.assign` writes. -/
structure SpatialUnit where
  col : ℤ
  row : ℤ
  x : ℚ
  y : ℚ
  count : AggValue
  attributes : AggValue
  extra : List (String × AggValue)
deriving DecidableEq

/-- A fresh bucket: `count: 0, attributes: []` at the cell centre. -/
def newSpatialUnit (c r : ℤ) (centre : ℚ × ℚ) : SpatialUnit :=
  ⟨c, r, centre.1, centre.2, .v (.num 0), .attrsV [], []⟩

/-- `spatialUnit.count++` (the count is always a number when this runs;
other shapes are unreachable and left unchanged). -/
def incCount (u : SpatialUnit) : SpatialUnit :=
  match u.count with
  | .v (.num q) => { u with count := .v (.num (q + 1)) }
  | _ => u

/-- `spatialUnit.attributes.push(datum.properties)` (the attributes slot is
always a list when this runs). -/
def pushAttr (u : SpatialUnit) (p : Props) : SpatialUnit :=
  match u.attributes with
  | .attrsV l => { u with attributes := .attrsV (l ++ [p]) }
  | _ => u

/-- `spatialUnitsLookup[key]` lookup. -/
def findUnit (lk : List ((ℤ × ℤ) × SpatialUnit)) (k : ℤ × ℤ) :
    Option SpatialUnit :=
  (lk.find? (fun e => decide (e.1 = k))).map (·.2)

/-- `spatialUnitsLookup[key] = spatialUnit`: updating an existing key keeps
its position, a new key is appended (JavaScript object insertion order for
non-index keys). -/
def storeUnit (lk : List ((ℤ × ℤ) × SpatialUnit)) (k : ℤ × ℤ)
    (u : SpatialUnit) : List ((ℤ × ℤ) × SpatialUnit) :=
  if (lk.find? (fun e => decide (e.1 = k))).isSome then
    lk.map (fun e => if e.1 = k then (k, u) else e)
  else lk ++ [(k, u)]

/-- The per-point body of the loop in `_calculateDynamicGridData`: resolve
the cell, get or lazily create the bucket, `count++`, push the properties,
and apply the custom aggregation callback if one is configured. -/
def processPoint (getColRow : ℚ → ℚ → ℤ × ℤ) (getXYCentre : ℤ → ℤ → ℚ × ℚ)
    (customFn : Option (SpatialUnit → DataPoint → SpatialUnit))
    (lk : List ((ℤ × ℤ) × SpatialUnit)) (d : DataPoint) :
    List ((ℤ × ℤ) × SpatialUnit) :=
  let cr := getColRow d.screenPoint.1 d.screenPoint.2
  let u0 :=
    match findUnit lk cr with
    | some u => u
    | none => newSpatialUnit cr.1 cr.2 (getXYCentre cr.1 cr.2)
  let u1 := pushAttr (incCount u0) d.properties
  let u2 :=
    match customFn with
    | some f => f u1 d
    | none => u1
  storeUnit lk cr u2

/-- `aggregateCellData(cellData, config)` from data-processor.js: the
`count` entry, then one entry per configured field whose non-null values
in the bucket are non-empty. -/
def aggregateCellData (cellData : List Props)
    (aggregations : List (String × String)) : List (String × AggValue) :=
  if cellData.length = 0 then [("count", .v (.num 0))]
  else
    ("count", .v (.num cellData.length)) ::
      aggregations.filterMap (fun fa =>
        let values := (cellData.filterMap (fun row => getProp row fa.1)).filter
          (fun v => decide (v ≠ JSVal.null))
        if values.length > 0 then some (fa.1, applyAggregation values fa.2)
        else none)

/-- `Object.assign(spatialUnit, aggregatedData)`: assign each result entry
onto the unit in order; the keys `count` and `attributes` hit the bucket's
own fields. -/
def mergeAgg (u : SpatialUnit) (results : List (String × AggValue)) :
    SpatialUnit :=
  results.foldl
    (fun u r =>
      if r.1 = "count" then { u with count := r.2 }
      else if r.1 = "attributes" then { u with attributes := r.2 }
      else { u with extra := u.extra ++ [r] })
    u

/-- The attributes list of a bucket (always the actual list before any
`Object.assign` overwrite). -/
def attrsOf (u : SpatialUnit) : List Props :=
  match u.attributes with
  | .attrsV l => l
  | _ => []

/-- `_calculateDynamicGridData` (without the host-presence guards): bucket
every screen point, then, when aggregation fields are configured
(`aggregationConfig.fields.length > 0`), `Object.assign` the
`aggregateCellData` results onto each bucket; the grid snapshot is
`Object.values` of the lookup. -/
def calculateDynamicGridData (getColRow : ℚ → ℚ → ℤ × ℤ)
    (getXYCentre : ℤ → ℤ → ℚ × ℚ) (aggFields : List String)
    (aggregations : List (String × String))
    (customFn : Option (SpatialUnit → DataPoint → SpatialUnit))
    (screenData : List DataPoint) : List SpatialUnit :=
  let lookup := screenData.foldl (processPoint getColRow getXYCentre customFn) []
  let units := lookup.map (·.2)
  if aggFields.length > 0 then
    units.map (fun u => mergeAgg u (aggregateCellData (attrsOf u) aggregations))
  else units

/-- The bucket shape during accumulation: the attributes list and a
numeric count equal to its length. -/
def CountsAttrs (u : SpatialUnit) : Prop :=
  ∃ l, u.attributes = AggValue.attrsV l
    ∧ u.count = AggValue.v (.num (l.length : ℚ))

theorem counts_attrs_step (u : SpatialUnit) (p : Props) (h : CountsAttrs u) :
    ∃ l, u.attributes = AggValue.attrsV l
      ∧ (pushAttr (incCount u) p).attributes = AggValue.attrsV (l ++ [p])
      ∧ (pushAttr (incCount u) p).count
          = AggValue.v (.num ((l ++ [p]).length : ℚ)) := by
  obtain ⟨l, ha, hc⟩ := h
  refine ⟨l, ha, ?_, ?_⟩
  · unfold incCount
    rw [hc]
    unfold pushAttr
    simp only [ha]
  · unfold incCount
    rw [hc]
    unfold pushAttr
    simp only [ha]
    simp

theorem findUnit_mem {lk : List ((ℤ × ℤ) × SpatialUnit)} {k : ℤ × ℤ}
    {u : SpatialUnit} (h : findUnit lk k = some u) : (k, u) ∈ lk := by
  unfold findUnit at h
  obtain ⟨e, he, heq⟩ := Option.map_eq_some'.mp h
  have hmem := List.mem_of_find?_eq_some he
  have hkey := List.find?_some he
  simp only [decide_eq_true_eq] at hkey
  obtain ⟨e1, e2⟩ := e
  simp only at heq hkey
  rw [hkey, heq] at hmem
  exact hmem

theorem storeUnit_forall {P : SpatialUnit → Prop}
    {lk : List ((ℤ × ℤ) × SpatialUnit)} {k : ℤ × ℤ} {u : SpatialUnit}
    (hlk : ∀ e ∈ lk, P e.2) (hu : P u) :
    ∀ e ∈ storeUnit lk k u, P e.2 := by
  intro e he
  unfold storeUnit at he
  by_cases hfind : (lk.find? (fun e => decide (e.1 = k))).isSome
  · rw [if_pos hfind] at he
    obtain ⟨e0, he0, heq⟩ := List.mem_map.mp he
    by_cases hk : e0.1 = k
    · rw [if_pos hk] at heq
      rw [← heq]
      exact hu
    · rw [if_neg hk] at heq
      rw [← heq]
      exact hlk e0 he0
  · rw [if_neg hfind] at he
    rcases List.mem_append.mp he with h | h
    · exact hlk e h
    · rw [List.mem_singleton.mp h]
      exact hu

theorem processPoint_preserves (getColRow : ℚ → ℚ → ℤ × ℤ)
    (getXYCentre : ℤ → ℤ → ℚ × ℚ) (d : DataPoint)
    {lk : List ((ℤ × ℤ) × SpatialUnit)}
    (hlk : ∀ e ∈ lk, CountsAttrs e.2 ∧ 1 ≤ (attrsOf e.2).length) :
    ∀ e ∈ processPoint getColRow getXYCentre none lk d,
      CountsAttrs e.2 ∧ 1 ≤ (attrsOf e.2).length := by
  unfold processPoint
  simp only
  set cr := getColRow d.screenPoint.1 d.screenPoint.2 with hcr
  have hu0 : CountsAttrs
      (match findUnit lk cr with
       | some u => u
       | none => newSpatialUnit cr.1 cr.2 (getXYCentre cr.1 cr.2)) := by
    cases hf : findUnit lk cr with
    | some u => exact ((hlk (cr, u) (findUnit_mem hf)).1)
    | none => exact ⟨[], rfl, rfl⟩
  set u0 := (match findUnit lk cr with
       | some u => u
       | none => newSpatialUnit cr.1 cr.2 (getXYCentre cr.1 cr.2)) with hu0def
  obtain ⟨l, _, ha1, hc1⟩ := counts_attrs_step u0 d.properties hu0
  refine storeUnit_forall
    (P := fun v => CountsAttrs v ∧ 1 ≤ (attrsOf v).length) hlk ?_
  constructor
  · exact ⟨l ++ [d.properties], ha1, hc1⟩
  · unfold attrsOf
    rw [ha1]
    simp

theorem foldl_processPoint_invariant (getColRow : ℚ → ℚ → ℤ × ℤ)
    (getXYCentre : ℤ → ℤ → ℚ × ℚ) :
    ∀ (data : List DataPoint) (lk : List ((ℤ × ℤ) × SpatialUnit)),
      (∀ e ∈ lk, CountsAttrs e.2 ∧ 1 ≤ (attrsOf e.2).length) →
      ∀ e ∈ data.foldl (processPoint getColRow getXYCentre none) lk,
        CountsAttrs e.2 ∧ 1 ≤ (attrsOf e.2).length := by
  intro data
  induction data with
  | nil => intro lk hlk; exact hlk
  | cons d rest ih =>
    intro lk hlk
    rw [List.foldl_cons]
    exact ih _ (processPoint_preserves getColRow getXYCentre d hlk)

theorem mergeAgg_no_collision (u : SpatialUnit) :
    ∀ (results : List (String × AggValue)),
      (∀ r ∈ results, r.1 ≠ "count" ∧ r.1 ≠ "attributes") →
      (mergeAgg u results).count = u.count
        ∧ (mergeAgg u results).attributes = u.attributes := by
  intro results
  induction results generalizing u with
  | nil => intro _; exact ⟨rfl, rfl⟩
  | cons r rest ih =>
    intro hr
    have hhead := hr r (by simp)
    unfold mergeAgg
    rw [List.foldl_cons, if_neg hhead.1, if_neg hhead.2]
    exact ih { u with extra := u.extra ++ [r] } (fun x hx => hr x (by simp [hx]))

theorem mergeAgg_cons_count (u : SpatialUnit) (v : AggValue)
    (rest : List (String × AggValue)) :
    mergeAgg u (("count", v) :: rest) = mergeAgg { u with count := v } rest := by
  unfold mergeAgg
  rw [List.foldl_cons, if_pos rfl]

/-- C10 (amended): after a dynamic-mode recompute with no custom
aggregation callback, every cell in the resulting grid snapshot has a
numeric `count` equal to `attributes.length` with `count ≥ 1` - provided
no configured aggregation field is itself named `count` or `attributes`
(such a field name collides with the bucket's own properties when the
aggregation results are `Object.assign`-ed onto the cell; see the
counterexample). -/
theorem dynamicGrid_count_invariant (getColRow : ℚ → ℚ → ℤ × ℤ)
    (getXYCentre : ℤ → ℤ → ℚ × ℚ) (aggFields : List String)
    (aggregations : List (String × String)) (screenData : List DataPoint)
    (hagg : ∀ fa ∈ aggregations, fa.1 ≠ "count" ∧ fa.1 ≠ "attributes") :
    ∀ u ∈ calculateDynamicGridData getColRow getXYCentre aggFields
        aggregations none screenData,
      ∃ l, u.attributes = AggValue.attrsV l
        ∧ u.count = AggValue.v (.num (l.length : ℚ))
        ∧ 1 ≤ l.length := by
  intro u hu
  unfold calculateDynamicGridData at hu
  simp only at hu
  have hinv := foldl_processPoint_invariant getColRow getXYCentre screenData []
    (by intro e he; exact absurd he (List.not_mem_nil e))
  by_cases hfields : aggFields.length > 0
  · rw [if_pos hfields] at hu
    obtain ⟨u0, hu0mem, rfl⟩ := List.mem_map.mp hu
    obtain ⟨e, hemem, rfl⟩ := List.mem_map.mp hu0mem
    obtain ⟨⟨l, ha, hc⟩, hlen⟩ := hinv e hemem
    have hattrs : attrsOf e.2 = l := by
      unfold attrsOf
      rw [ha]
    rw [hattrs] at hlen
    have hlen0 : ¬l.length = 0 := by omega
    have hres : aggregateCellData (attrsOf e.2) aggregations
        = ("count", AggValue.v (.num l.length)) ::
            aggregations.filterMap (fun fa =>
              let values := ((attrsOf e.2).filterMap (fun row => getProp row fa.1)).filter
                (fun v => decide (v ≠ JSVal.null))
              if values.length > 0 then some (fa.1, applyAggregation values fa.2)
              else none) := by
      unfold aggregateCellData
      rw [hattrs, if_neg hlen0]
    rw [hres, mergeAgg_cons_count]
    have hrest : ∀ r ∈ aggregations.filterMap (fun fa =>
        let values := ((attrsOf e.2).filterMap (fun row => getProp row fa.1)).filter
          (fun v => decide (v ≠ JSVal.null))
        if values.length > 0 then some (fa.1, applyAggregation values fa.2)
        else none), r.1 ≠ "count" ∧ r.1 ≠ "attributes" := by
      intro r hr
      obtain ⟨fa, hfa, hsome⟩ := List.mem_filterMap.mp hr
      simp only at hsome
      by_cases hv : (((attrsOf e.2).filterMap (fun row => getProp row fa.1)).filter
          (fun v => decide (v ≠ JSVal.null))).length > 0
      · rw [if_pos hv] at hsome
        have heq := Option.some.inj hsome
        rw [← heq]
        exact hagg fa hfa
      · rw [if_neg hv] at hsome
        exact absurd hsome (by simp)
    obtain ⟨hcount, hattr⟩ := mergeAgg_no_collision
      { e.2 with count := AggValue.v (.num l.length) } _ hrest
    refine ⟨l, ?_, ?_, hlen⟩
    · rw [hattr]
      exact ha
    · rw [hcount]
  · rw [if_neg hfields] at hu
    obtain ⟨e, hemem, rfl⟩ := List.mem_map.mp hu
    obtain ⟨⟨l, ha, hc⟩, hlen⟩ := hinv e hemem
    have hattrs : attrsOf e.2 = l := by
      unfold attrsOf
      rw [ha]
    rw [hattrs] at hlen
    exact ⟨l, ha, hc, hlen⟩

/-- The single cell produced by the concrete C10 witness scenario. -/
def witnessUnit : SpatialUnit :=
  ⟨0, 0, 5, 5, AggValue.v (.num 1), AggValue.attrsV [[("v", JSVal.num 3)]],
   [("v", AggValue.v (.num 3))]⟩

theorem dynamicGrid_count_invariant_witness :
    ∃ l, witnessUnit.attributes = AggValue.attrsV l
      ∧ witnessUnit.count = AggValue.v (.num (l.length : ℚ))
      ∧ 1 ≤ l.length := by
  have hres : calculateDynamicGridData (GridDiscretiser.getColRow 10)
      (GridDiscretiser.getXYCentre 10) ["v"] [("v", "mean")] none
      [⟨(5, 5), [("v", JSVal.num 3)]⟩] = [witnessUnit] := by
    unfold witnessUnit
    simp only [calculateDynamicGridData, processPoint, findUnit, storeUnit,
      newSpatialUnit, incCount, pushAttr, aggregateCellData, mergeAgg, attrsOf,
      getProp, applyAggregation, jsSum, jsAdd, jsDiv, jsToNum,
      GridDiscretiser.getColRow, GridDiscretiser.getXYCentre, jsTrunc,
      List.foldl_cons, List.foldl_nil, List.filterMap, List.filter,
      List.find?, List.map, List.length]
    norm_num
    simp only [show (("v" : String) = "count") = False by simp,
      show (("v" : String) = "attributes") = False by simp,
      show (("mean" : String) = "count") = False by simp,
      show (("mean" : String) = "sum") = False by simp,
      show (("mean" : String) = "mean") = True by simp,
      show (decide (JSVal.num 3 = JSVal.null)) = false by decide,
      Bool.not_false, if_true, if_false,
      List.foldl_cons, List.foldl_nil, jsAdd_num_num]
    norm_num
  have hmem : witnessUnit ∈ calculateDynamicGridData (GridDiscretiser.getColRow 10)
      (GridDiscretiser.getXYCentre 10) ["v"] [("v", "mean")] none
      [⟨(5, 5), [("v", JSVal.num 3)]⟩] := by
    rw [hres]
    exact List.mem_singleton.mpr rfl
  exact dynamicGrid_count_invariant (GridDiscretiser.getColRow 10)
    (GridDiscretiser.getXYCentre 10) ["v"] [("v", "mean")]
    [⟨(5, 5), [("v", JSVal.num 3)]⟩]
    (by
      intro fa hfa
      rw [List.mem_singleton.mp hfa]
      exact ⟨by decide, by decide⟩)
    witnessUnit hmem

/-- C10 (counterexample): one point with a property literally named
`count`, aggregated with `mean` over the field `count` and no custom
callback: `Object.assign` overwrites the cell's own `count` (1) with the
aggregated mean (5), so the resulting cell has `count = 5` while
`attributes.length = 1`. -/
theorem dynamicGrid_count_invariant_counterexample :
    calculateDynamicGridData (GridDiscretiser.getColRow 10)
        (GridDiscretiser.getXYCentre 10) ["count"] [("count", "mean")] none
        [⟨(5, 5), [("count", JSVal.num 5)]⟩]
      = [⟨0, 0, 5, 5, AggValue.v (.num 5),
          AggValue.attrsV [[("count", JSVal.num 5)]], []⟩] ∧
    AggValue.v (JSVal.num 5) ≠ AggValue.v (.num ((1 : ℕ) : ℚ)) := by
  constructor
  · simp only [calculateDynamicGridData, processPoint, findUnit, storeUnit,
      newSpatialUnit, incCount, pushAttr, aggregateCellData, mergeAgg, attrsOf,
      getProp, applyAggregation, jsSum, jsAdd, jsDiv, jsToNum,
      GridDiscretiser.getColRow, GridDiscretiser.getXYCentre, jsTrunc,
      List.foldl_cons, List.foldl_nil, List.filterMap, List.filter,
      List.find?, List.map, List.length]
    norm_num
    rw [if_neg (by decide), if_neg (by decide)]
    have hd : (decide (JSVal.num 5 = JSVal.null)) = false := by decide
    simp only [hd, Bool.not_false, List.foldl_cons, List.foldl_nil, jsAdd_num_num]
    norm_num
  · intro h
    have h5 : (5 : ℚ) = ((1 : ℕ) : ℚ) := by
      have := AggValue.v.inj h
      exact JSVal.num.inj this
    norm_num at h5
